import Mathlib

/-!
Verification of the Ledger & Settlement Engine of the mock-betting repository.

The embedding translates the ledger-affecting functions of src/src/App.tsx
(calculateProfit, getSpreadExplanation, loginWithUsername, handlePlaceBet,
handleSettleBet) into pure Lean definitions.  JavaScript numbers are modelled
as rationals; where a value can also be NaN or an infinity (the result of
parseFloat on an arbitrary input string) an explicit JsNumber type is used.
Number.prototype.toFixed(2) followed by Number(...) is modelled by roundTo2,
using the ECMA rule that on a tie the larger candidate is chosen.
-/

namespace MockBetting

/-- A JavaScript number as it can come out of parseFloat: NaN, an infinity,
or a finite value (modelled as a rational). -/
inductive JsNumber where
  | nan
  | posInf
  | negInf
  | fin (q : ℚ)
deriving DecidableEq

/-- JavaScript isNaN. -/
def JsNumber.isNaN : JsNumber → Bool
  | .nan => true
  | _ => false

/-- The IEEE comparison x <= 0 (false for NaN, false for +Infinity,
true for -Infinity). -/
def JsNumber.leZero : JsNumber → Bool
  | .nan => false
  | .posInf => false
  | .negInf => true
  | .fin q => q ≤ 0

/-- The IEEE comparison x > b for a finite bound b (false for NaN and
-Infinity, true for +Infinity). -/
def JsNumber.gtQ : JsNumber → ℚ → Bool
  | .nan, _ => false
  | .posInf, _ => true
  | .negInf, _ => false
  | .fin q, b => b < q

/-- The finite value of a JsNumber (junk value 0 in the non-finite cases;
every use is guarded so that only the finite case is reached). -/
def JsNumber.toQ : JsNumber → ℚ
  | .fin q => q
  | _ => 0

/-- App.tsx 75-81, calculateProfit: the American-odds profit formula.
The spec calls this function computeProfit. -/
def calculateProfit (stake odds : ℚ) : ℚ :=
  if 0 < odds then
    stake * (odds / 100)
  else
    stake * (100 / |odds|)

/-- Number(x.toFixed(2)): round to 2 decimal places, ties toward the larger
candidate (ECMA toFixed picks the larger n on a tie). -/
def roundTo2 (x : ℚ) : ℚ :=
  (⌊x * 100 + 1 / 2⌋ : ℚ) / 100

/-- The result a user declares when settling a bet (App.tsx SettleResult). -/
inductive SettleResult where
  | WON
  | LOST
  | PUSH
deriving DecidableEq

/-- The status column of a bet row (App.tsx BetRow.status). -/
inductive BetStatus where
  | PENDING
  | WON
  | LOST
  | PUSH
deriving DecidableEq

/-- Settling with result R stores R as the new status (App.tsx 464). -/
def SettleResult.toStatus : SettleResult → BetStatus
  | .WON => .WON
  | .LOST => .LOST
  | .PUSH => .PUSH

/-- The four numeric outputs computed by handleSettleBet before persisting. -/
structure SettleOutputs where
  profit : ℚ
  payout : ℚ
  fairProfit : ℚ
  fairPayout : ℚ
deriving DecidableEq

/-- App.tsx 432-459: the profit/payout and fairProfit/fairPayout chains of
handleSettleBet, as functions of the stored stake and odds. -/
def settleOutputs (stake odds : ℚ) : SettleResult → SettleOutputs
  | .WON =>
      let profit := roundTo2 (calculateProfit stake odds)
      { profit := profit
        payout := stake + profit
        fairProfit := stake
        fairPayout := stake + stake }
  | .LOST =>
      { profit := -stake, payout := 0, fairProfit := -stake, fairPayout := 0 }
  | .PUSH =>
      { profit := 0, payout := stake, fairProfit := 0, fairPayout := stake }

/-- App.tsx GameInfo: the joined team names of the game a bet is on. -/
structure GameInfo where
  home_team : String
  away_team : String
deriving DecidableEq

/-- Which side of the game the bet backs. -/
inductive Side where
  | HOME
  | AWAY
deriving DecidableEq

/-- oddsApi.ts SpreadSide: the quoted team name, spread point and American
price for one side of a game. -/
structure SpreadSide where
  teamName : String
  point : ℚ
  price : ℚ
deriving DecidableEq

/-- App.tsx BetRow, restricted to the fields the ledger logic touches. -/
structure BetRow where
  id : ℕ
  side : Side
  team_name : String
  spread_line : ℚ
  odds_american : ℚ
  stake : ℚ
  status : BetStatus
  payout : Option ℚ
  profit : Option ℚ
  fair_profit : Option ℚ
  fair_payout : Option ℚ
  game : Option GameInfo
deriving DecidableEq

/-- The type column of a ledger transaction. -/
inductive TxType where
  | INITIAL
  | BET_PLACED
  | BET_SETTLED
deriving DecidableEq

/-- App.tsx TransactionInsert (the user id is implicit: the state below is
the ledger of a single user). -/
structure Transaction where
  type : TxType
  amount : ℚ
  balance_after : ℚ
  bet_id : Option ℕ
deriving DecidableEq

/-- The persistent state the ledger operations of a single user read and
write: the user row plus that user's bets and transactions. -/
structure LedgerState where
  starting_balance : ℚ
  current_balance : ℚ
  bets : List BetRow
  transactions : List Transaction
deriving DecidableEq

/-- The outcome of a ledger operation: the state afterwards and the error
message, if any.  The App.tsx handlers return early on every validation
failure, before any write, so a failed operation leaves the state as it was. -/
structure OpResult where
  state : LedgerState
  err : Option String
deriving DecidableEq

def msgInvalidStake : String := "Enter a valid stake."

def msgStakeExceeds : String := "Stake exceeds your current balance."

def msgAlreadySettled : String := "Bet is already settled."

def msgBetUpdateFailed : String := "Failed to update bet"

/-- Modelled from the spec: the database schema (not under src/) gives a new
user row equal starting and current balances at creation; loginWithUsername
(App.tsx 219-248) then records one INITIAL transaction with
amount = starting_balance and balance_after = current_balance. -/
def createUser (startBal : ℚ) : LedgerState :=
  { starting_balance := startBal
    current_balance := startBal
    bets := []
    transactions := [{ type := .INITIAL, amount := startBal,
                       balance_after := startBal, bet_id := none }] }

/-- App.tsx 339-415, handlePlaceBet: validate the parsed stake, then insert a
PENDING bet, append a BET_PLACED transaction debiting the stake, and update
the balance.  The generated bet id is modelled as the next list index. -/
def placeBet (st : LedgerState) (stakeIn : JsNumber) (side : Side)
    (spread : SpreadSide) (g : Option GameInfo) : OpResult :=
  if stakeIn.isNaN || stakeIn.leZero then
    { state := st, err := some msgInvalidStake }
  else if stakeIn.gtQ st.current_balance then
    { state := st, err := some msgStakeExceeds }
  else
    let parsedStake := stakeIn.toQ
    let bid := st.bets.length
    let newBalance := st.current_balance - parsedStake
    { state :=
        { starting_balance := st.starting_balance
          current_balance := newBalance
          bets := st.bets ++
            [{ id := bid, side := side, team_name := spread.teamName,
               spread_line := spread.point, odds_american := spread.price,
               stake := parsedStake, status := .PENDING,
               payout := none, profit := none,
               fair_profit := none, fair_payout := none, game := g }]
          transactions := st.transactions ++
            [{ type := .BET_PLACED, amount := -parsedStake,
               balance_after := newBalance, bet_id := some bid }] }
      err := none }

/-- App.tsx 417-514, handleSettleBet: refuse to settle a non-PENDING bet,
otherwise persist the settlement fields on the bet, append one BET_SETTLED
transaction with amount = payout and balance_after = current_balance + payout,
and update the balance.  A miss on the bet id corresponds to the update
returning no row (App.tsx 475-477). -/
def settleBet (st : LedgerState) (bid : ℕ) (result : SettleResult) : OpResult :=
  match st.bets.find? (fun b => b.id == bid) with
  | none => { state := st, err := some msgBetUpdateFailed }
  | some bet =>
    if bet.status ≠ BetStatus.PENDING then
      { state := st, err := some msgAlreadySettled }
    else
      let o := settleOutputs bet.stake bet.odds_american result
      let updated : BetRow :=
        { bet with status := result.toStatus,
                   payout := some o.payout, profit := some o.profit,
                   fair_profit := some o.fairProfit,
                   fair_payout := some o.fairPayout }
      let newBalance := st.current_balance + o.payout
      { state :=
          { starting_balance := st.starting_balance
            current_balance := newBalance
            bets := st.bets.map (fun b => if b.id == bid then updated else b)
            transactions := st.transactions ++
              [{ type := .BET_SETTLED, amount := o.payout,
                 balance_after := newBalance, bet_id := some bid }] }
        err := none }

/-- App.tsx 98/106: absLine % 1 !== 0, the test for a fractional ("hook")
spread line, applied to a non-negative rational. -/
def hasHook (q : ℚ) : Bool :=
  q.den ≠ 1

/-- The five shapes of settlement-criteria sentence that getSpreadExplanation
can emit, together with the numeric thresholds each sentence mentions. -/
inductive SpreadCriteria where
  | pickem
  | favoriteHook (needed : ℤ)
  | favoriteInt (absLine : ℚ)
  | underdogHook (maxLose : ℤ)
  | underdogInt (absLine : ℚ)
deriving DecidableEq

/-- App.tsx 93-113: the branch structure and threshold arithmetic of
getSpreadExplanation (line === 0; line < 0 with/without hook, where
needed = Math.floor(absLine) + 1; line > 0 with/without hook, where
maxLose = Math.floor(absLine)). -/
def spreadCriteria (line : ℚ) : SpreadCriteria :=
  if line = 0 then
    .pickem
  else if line < 0 then
    if hasHook |line| then .favoriteHook (⌊|line|⌋ + 1)
    else .favoriteInt |line|
  else
    if hasHook |line| then .underdogHook ⌊|line|⌋
    else .underdogInt |line|

/-- Display form of a number interpolated into the explanation text.  For
integral values this matches the JavaScript template-literal rendering; the
decimal rendering of fractional lines (for example 3.5) is abstracted, which
only affects the cosmetic line label, never a threshold. -/
def numToDisplay (q : ℚ) : String :=
  if q.den = 1 then toString q.num else toString q

/-- The sentence templates of App.tsx 93-113, one per criteria shape. -/
def renderCriteria (betTeam oppTeam lineStr : String) : SpreadCriteria → String
  | .pickem =>
      "You bet " ++ betTeam ++ " (pick\x27em). If " ++ betTeam ++
      " win, select WON. If " ++ oppTeam ++
      " win, select LOST. If the game ends tied, select PUSH."
  | .favoriteHook needed =>
      "You bet " ++ betTeam ++ " " ++ lineStr ++ ". If " ++ betTeam ++
      " win by " ++ toString needed ++ " or more points, select WON. If " ++
      oppTeam ++ " win or " ++ betTeam ++ " win by " ++
      toString (needed - 1) ++ " or fewer, select LOST."
  | .favoriteInt absLine =>
      "You bet " ++ betTeam ++ " " ++ lineStr ++ ". If " ++ betTeam ++
      " win by more than " ++ numToDisplay absLine ++
      " points, select WON. If they win by exactly " ++
      numToDisplay absLine ++ ", select PUSH. If they win by fewer than " ++
      numToDisplay absLine ++ " points or lose, select LOST."
  | .underdogHook maxLose =>
      "You bet " ++ betTeam ++ " " ++ lineStr ++ ". If " ++ betTeam ++
      " win or lose by " ++ toString maxLose ++
      " points or fewer, select WON. If they lose by " ++
      toString (maxLose + 1) ++ " or more, select LOST."
  | .underdogInt absLine =>
      "You bet " ++ betTeam ++ " " ++ lineStr ++ ". If " ++ betTeam ++
      " win or lose by fewer than " ++ numToDisplay absLine ++
      " points, select WON. If they lose by exactly " ++
      numToDisplay absLine ++ ", select PUSH. If they lose by more than " ++
      numToDisplay absLine ++ ", select LOST."

/-- App.tsx 83-115, getSpreadExplanation: empty for a bet with no joined
game, otherwise the settlement-criteria sentence for the bet's side and
spread line. -/
def getSpreadExplanation (bet : BetRow) : String :=
  match bet.game with
  | none => ""
  | some g =>
    let line := bet.spread_line
    let lineStr := if 0 < line then "+" ++ numToDisplay line
                   else numToDisplay line
    let betTeam := match bet.side with
                   | .HOME => g.home_team
                   | .AWAY => g.away_team
    let oppTeam := match bet.side with
                   | .HOME => g.away_team
                   | .AWAY => g.home_team
    renderCriteria betTeam oppTeam lineStr (spreadCriteria line)

/-- The WON/LOST/PUSH decision each explanation sentence instructs the user
to select, as a function of the bet team's final margin m (m > 0: the bet
team won by m points; m < 0: it lost by -m; m = 0: tie). -/
def criteriaOutcome (c : SpreadCriteria) (m : ℤ) : SettleResult :=
  match c with
  | .pickem =>
      if 0 < m then .WON else if m = 0 then .PUSH else .LOST
  | .favoriteHook needed =>
      if needed ≤ m then .WON else .LOST
  | .favoriteInt a =>
      if a < (m : ℚ) then .WON else if (m : ℚ) = a then .PUSH else .LOST
  | .underdogHook maxLose =>
      if 1 ≤ m ∨ -m ≤ maxLose then .WON else .LOST
  | .underdogInt a =>
      if -a < (m : ℚ) then .WON else if (m : ℚ) = -a then .PUSH else .LOST

/-- Modelled from the spec: the five threshold cases of the
settlement-criteria explainer (spec section 4.4), stated over the bet team's
final margin m.  Pick-em: WON iff the bet team wins outright, PUSH iff tie;
favorite fractional: WON iff margin of victory is at least
needed = floor(abs line) + 1, else LOST; favorite integer: WON iff
margin > abs line, PUSH iff equal; underdog fractional: LOST iff the team
loses by at least maxLose + 1 where maxLose = floor(line), else WON;
underdog integer: LOST iff it loses by more than the line, PUSH iff by
exactly the line, else WON. -/
def specSpreadOutcome (line : ℚ) (m : ℤ) : SettleResult :=
  if line = 0 then
    if 0 < m then .WON else if m = 0 then .PUSH else .LOST
  else if line < 0 then
    if hasHook |line| then
      if ⌊|line|⌋ + 1 ≤ m then .WON else .LOST
    else
      if |line| < (m : ℚ) then .WON
      else if (m : ℚ) = |line| then .PUSH
      else .LOST
  else
    if hasHook |line| then
      if ⌊line⌋ + 1 ≤ -m then .LOST else .WON
    else
      if (m : ℚ) < -line then .LOST
      else if (m : ℚ) = -line then .PUSH
      else .WON

/-- Two rationals agree in sign: both positive, both negative, or both 0. -/
def sameSign (a b : ℚ) : Prop :=
  (0 < a ↔ 0 < b) ∧ (a < 0 ↔ b < 0)

/-- Sum of the amounts of a transaction list. -/
def txSum (l : List Transaction) : ℚ :=
  (l.map (fun t => t.amount)).sum

/-- The states reachable by the ledger operations: user creation followed by
any sequence of bet placements and settlements. -/
inductive Reachable : LedgerState → Prop where
  | create (startBal : ℚ) : Reachable (createUser startBal)
  | place (st : LedgerState) (stakeIn : JsNumber) (side : Side)
      (spread : SpreadSide) (g : Option GameInfo) :
      Reachable st → Reachable (placeBet st stakeIn side spread g).state
  | settle (st : LedgerState) (bid : ℕ) (result : SettleResult) :
      Reachable st → Reachable (settleBet st bid result).state

/-- The transactions of a list other than the INITIAL seed. -/
def nonInitial (l : List Transaction) : List Transaction :=
  l.filter (fun t => t.type ≠ TxType.INITIAL)

/-- A concrete PENDING bet used to instantiate the settlement theorems. -/
def sampleBet : BetRow :=
  { id := 0, side := .HOME, team_name := "Chiefs", spread_line := -7/2,
    odds_american := -110, stake := 100, status := .PENDING,
    payout := none, profit := none, fair_profit := none, fair_payout := none,
    game := some { home_team := "Chiefs", away_team := "Jets" } }

/-- A concrete already-settled bet. -/
def settledBet : BetRow :=
  { id := 0, side := .HOME, team_name := "Chiefs", spread_line := -7/2,
    odds_american := -110, stake := 100, status := .WON,
    payout := some (19091/100), profit := some (9091/100),
    fair_profit := some 100, fair_payout := some 200,
    game := some { home_team := "Chiefs", away_team := "Jets" } }

/-- A concrete quoted spread side. -/
def sampleSpread : SpreadSide :=
  { teamName := "Chiefs", point := -7/2, price := -110 }

/-- A concrete state holding one PENDING bet. -/
def sampleState : LedgerState :=
  { starting_balance := 1000, current_balance := 900,
    bets := [sampleBet],
    transactions :=
      [{ type := .INITIAL, amount := 1000, balance_after := 1000,
         bet_id := none },
       { type := .BET_PLACED, amount := -100, balance_after := 900,
         bet_id := some 0 }] }

/-- A concrete state holding one already-settled bet. -/
def settledState : LedgerState :=
  { starting_balance := 1000, current_balance := 1090.91,
    bets := [settledBet],
    transactions :=
      [{ type := .INITIAL, amount := 1000, balance_after := 1000,
         bet_id := none },
       { type := .BET_PLACED, amount := -100, balance_after := 900,
         bet_id := some 0 },
       { type := .BET_SETTLED, amount := 19091/100,
         balance_after := 1090.91, bet_id := some 0 }] }

/-- The ledger invariant carried through every reachable state: the balance
equals the ledger sum (both with and without the INITIAL seed), all stored
stakes are positive, and (when the starting balance is non-negative) the
balance and every recorded balance_after are non-negative. -/
def GoodState (st : LedgerState) : Prop :=
  st.current_balance = txSum st.transactions
  ∧ st.current_balance = st.starting_balance + txSum (nonInitial st.transactions)
  ∧ (∀ b ∈ st.bets, 0 < b.stake)
  ∧ (0 ≤ st.starting_balance →
      0 ≤ st.current_balance ∧ ∀ tx ∈ st.transactions, 0 ≤ tx.balance_after)

lemma txSum_append (l1 l2 : List Transaction) :
    txSum (l1 ++ l2) = txSum l1 + txSum l2 := by
  simp [txSum]

lemma nonInitial_append (l1 l2 : List Transaction) :
    nonInitial (l1 ++ l2) = nonInitial l1 ++ nonInitial l2 := by
  simp [nonInitial]

lemma roundTo2_nonneg {x : ℚ} (hx : 0 ≤ x) : 0 ≤ roundTo2 x := by
  unfold roundTo2
  have h1 : (0 : ℤ) ≤ ⌊x * 100 + 1 / 2⌋ := by
    apply Int.floor_nonneg.mpr
    nlinarith
  have h2 : (0 : ℚ) ≤ (⌊x * 100 + 1 / 2⌋ : ℚ) := by exact_mod_cast h1
  linarith [div_nonneg h2 (by norm_num : (0:ℚ) ≤ 100)]

lemma roundTo2_pos {x : ℚ} (hx : 1 / 200 ≤ x) : 0 < roundTo2 x := by
  unfold roundTo2
  have h1 : (1 : ℤ) ≤ ⌊x * 100 + 1 / 2⌋ := by
    apply Int.le_floor.mpr
    push_cast
    nlinarith
  have h2 : (1 : ℚ) ≤ (⌊x * 100 + 1 / 2⌋ : ℚ) := by exact_mod_cast h1
  positivity

lemma calculateProfit_nonneg {stake odds : ℚ} (hs : 0 ≤ stake) :
    0 ≤ calculateProfit stake odds := by
  unfold calculateProfit
  split_ifs with h
  · exact mul_nonneg hs (div_nonneg h.le (by norm_num))
  · exact mul_nonneg hs (div_nonneg (by norm_num) (abs_nonneg odds))

lemma calculateProfit_pos {stake odds : ℚ} (hs : 0 < stake) (ho : odds ≠ 0) :
    0 < calculateProfit stake odds := by
  unfold calculateProfit
  split_ifs with h
  · exact mul_pos hs (div_pos h (by norm_num))
  · exact mul_pos hs (div_pos (by norm_num) (abs_pos.mpr ho))

lemma settle_payout_nonneg {stake odds : ℚ} (hs : 0 < stake)
    (r : SettleResult) : 0 ≤ (settleOutputs stake odds r).payout := by
  cases r with
  | WON =>
      have := roundTo2_nonneg (@calculateProfit_nonneg stake odds hs.le)
      simp only [settleOutputs]
      linarith
  | LOST => simp [settleOutputs]
  | PUSH => simpa [settleOutputs] using hs.le

lemma txSum_singleton (t : Transaction) : txSum [t] = t.amount := by
  simp [txSum]

lemma nonInitial_nil : nonInitial [] = [] := rfl

lemma nonInitial_cons_of_ne (t : Transaction) (l : List Transaction)
    (h : t.type ≠ TxType.INITIAL) : nonInitial (t :: l) = t :: nonInitial l := by
  simp [nonInitial, h]

/-- Reduction of placeBet on a finite stake that passes both guards. -/
lemma placeBet_fin_eq (st : LedgerState) (q : ℚ) (side : Side)
    (spread : SpreadSide) (g : Option GameInfo)
    (hq : 0 < q) (hle : q ≤ st.current_balance) :
    placeBet st (JsNumber.fin q) side spread g =
      { state :=
          { starting_balance := st.starting_balance
            current_balance := st.current_balance - q
            bets := st.bets ++
              [{ id := st.bets.length, side := side,
                 team_name := spread.teamName, spread_line := spread.point,
                 odds_american := spread.price, stake := q,
                 status := .PENDING, payout := none, profit := none,
                 fair_profit := none, fair_payout := none, game := g }]
            transactions := st.transactions ++
              [{ type := .BET_PLACED, amount := -q,
                 balance_after := st.current_balance - q,
                 bet_id := some st.bets.length }] }
        err := none } := by
  have c1 : (JsNumber.isNaN (JsNumber.fin q)
      || JsNumber.leZero (JsNumber.fin q)) = false := by
    simp [JsNumber.isNaN, JsNumber.leZero]
    exact hq
  have c2 : JsNumber.gtQ (JsNumber.fin q) st.current_balance = false := by
    simp [JsNumber.gtQ]
    exact hle
  unfold placeBet
  rw [c1, c2]
  simp [JsNumber.toQ]

/-- Reduction of placeBet on inputs that a guard rejects: the state comes
back untouched with the matching error message. -/
lemma placeBet_reject_eq (st : LedgerState) (stakeIn : JsNumber) (side : Side)
    (spread : SpreadSide) (g : Option GameInfo)
    (h : ∀ q : ℚ, stakeIn = JsNumber.fin q →
      ¬(0 < q ∧ q ≤ st.current_balance)) :
    (placeBet st stakeIn side spread g).state = st ∧
      (placeBet st stakeIn side spread g).err ≠ none := by
  cases stakeIn with
  | nan => simp [placeBet, JsNumber.isNaN]
  | posInf => simp [placeBet, JsNumber.isNaN, JsNumber.leZero, JsNumber.gtQ]
  | negInf => simp [placeBet, JsNumber.isNaN, JsNumber.leZero]
  | fin q =>
      have hq := h q rfl
      by_cases hq0 : q ≤ 0
      · simp [placeBet, JsNumber.isNaN, JsNumber.leZero, hq0]
      · have hb : st.current_balance < q := by
          by_contra hb
          exact hq ⟨lt_of_not_le hq0, not_lt.mp hb⟩
        simp [placeBet, JsNumber.isNaN, JsNumber.leZero, JsNumber.gtQ,
          hq0, hb]

/-- Reduction of settleBet on a PENDING bet found in the list. -/
lemma settleBet_pending_eq (st : LedgerState) (bid : ℕ) (r : SettleResult)
    (bet : BetRow) (hfind : st.bets.find? (fun b => b.id == bid) = some bet)
    (hpend : bet.status = BetStatus.PENDING) :
    settleBet st bid r =
      { state :=
          { starting_balance := st.starting_balance
            current_balance := st.current_balance +
              (settleOutputs bet.stake bet.odds_american r).payout
            bets := st.bets.map (fun b => if b.id == bid then
              { bet with
                  status := r.toStatus
                  payout := some (settleOutputs bet.stake bet.odds_american r).payout
                  profit := some (settleOutputs bet.stake bet.odds_american r).profit
                  fair_profit := some (settleOutputs bet.stake bet.odds_american r).fairProfit
                  fair_payout := some (settleOutputs bet.stake bet.odds_american r).fairPayout }
              else b)
            transactions := st.transactions ++
              [{ type := .BET_SETTLED,
                 amount := (settleOutputs bet.stake bet.odds_american r).payout,
                 balance_after := st.current_balance +
                   (settleOutputs bet.stake bet.odds_american r).payout,
                 bet_id := some bid }] }
        err := none } := by
  unfold settleBet
  rw [hfind]
  dsimp only
  rw [if_neg (by simp [hpend])]

/-- Reduction of settleBet on a bet that is not PENDING. -/
lemma settleBet_terminal_eq (st : LedgerState) (bid : ℕ) (r : SettleResult)
    (bet : BetRow) (hfind : st.bets.find? (fun b => b.id == bid) = some bet)
    (hpend : bet.status ≠ BetStatus.PENDING) :
    settleBet st bid r = { state := st, err := some msgAlreadySettled } := by
  unfold settleBet
  rw [hfind]
  dsimp only
  rw [if_pos hpend]

/-- Characterization of the placeBet guards: the operation succeeds exactly
when the parsed stake is a finite number in (0, current_balance], and every
rejection leaves the state untouched. -/
lemma placeBet_spec (st : LedgerState) (stakeIn : JsNumber) (side : Side)
    (spread : SpreadSide) (g : Option GameInfo) :
    (((placeBet st stakeIn side spread g).err = none) ↔
      ∃ q : ℚ, stakeIn = JsNumber.fin q ∧ 0 < q ∧ q ≤ st.current_balance)
    ∧ ((placeBet st stakeIn side spread g).err ≠ none →
        (placeBet st stakeIn side spread g).state = st) := by
  by_cases h : ∃ q : ℚ, stakeIn = JsNumber.fin q ∧ 0 < q ∧
      q ≤ st.current_balance
  · obtain ⟨q, rfl, hq, hle⟩ := h
    rw [placeBet_fin_eq st q side spread g hq hle]
    constructor
    · simp
      exact ⟨hq, hle⟩
    · simp
  · obtain ⟨hstate, herr⟩ := placeBet_reject_eq st stakeIn side spread g
      (by
        intro q hq hcon
        exact h ⟨q, hq, hcon.1, hcon.2⟩)
    constructor
    · constructor
      · intro hnone
        exact absurd hnone herr
      · intro hex
        exact absurd hex h
    · intro _
      exact hstate

lemma reachable_good {st : LedgerState} (h : Reachable st) : GoodState st := by
  induction h with
  | create startBal =>
      refine ⟨by simp [createUser, txSum],
        by simp [createUser, txSum, nonInitial],
        by simp [createUser], ?_⟩
      intro hnn
      constructor
      · simpa [createUser] using hnn
      · intro tx htx
        simp only [createUser, List.mem_singleton] at htx
        subst htx
        simpa using hnn
  | place st stakeIn side spread g hst ih =>
      obtain ⟨h1, h2, h3, h4⟩ := ih
      by_cases hok : ∃ q : ℚ, stakeIn = JsNumber.fin q ∧ 0 < q ∧
          q ≤ st.current_balance
      · obtain ⟨q, rfl, hq, hle⟩ := hok
        rw [placeBet_fin_eq st q side spread g hq hle]
        refine ⟨?_, ?_, ?_, ?_⟩
        · simp only [txSum_append, txSum_singleton]
          rw [← h1]
          ring
        · simp only [nonInitial_append]
          rw [nonInitial_cons_of_ne _ _ (by simp), nonInitial_nil,
            txSum_append, txSum_singleton]
          rw [h2]
          ring
        · intro b hb2
          rcases List.mem_append.mp hb2 with hmem | hmem
          · exact h3 b hmem
          · simp only [List.mem_singleton] at hmem
            subst hmem
            simpa using hq
        · intro hnn
          obtain ⟨hbal, htxs⟩ := h4 hnn
          refine ⟨by simp only; linarith, ?_⟩
          intro tx htx
          rcases List.mem_append.mp htx with hmem | hmem
          · exact htxs tx hmem
          · simp only [List.mem_singleton] at hmem
            subst hmem
            simp only
            linarith
      · obtain ⟨hstate, _⟩ := placeBet_reject_eq st stakeIn side spread g
          (by
            intro q hqe hcon
            exact hok ⟨q, hqe, hcon.1, hcon.2⟩)
        rw [hstate]
        exact ⟨h1, h2, h3, h4⟩
  | settle st bid result hst ih =>
      obtain ⟨h1, h2, h3, h4⟩ := ih
      cases hfind : st.bets.find? (fun b => b.id == bid) with
      | none =>
          have : (settleBet st bid result).state = st := by
            unfold settleBet
            rw [hfind]
          rw [this]
          exact ⟨h1, h2, h3, h4⟩
      | some bet =>
          by_cases hpend : bet.status = BetStatus.PENDING
          · have hmem : bet ∈ st.bets := List.mem_of_find?_eq_some hfind
            have hstake : 0 < bet.stake := h3 bet hmem
            have hpay :
                0 ≤ (settleOutputs bet.stake bet.odds_american result).payout :=
              settle_payout_nonneg hstake result
            rw [settleBet_pending_eq st bid result bet hfind hpend]
            refine ⟨?_, ?_, ?_, ?_⟩
            · simp only [txSum_append, txSum_singleton]
              rw [← h1]
            · simp only [nonInitial_append]
              rw [nonInitial_cons_of_ne _ _ (by simp), nonInitial_nil,
                txSum_append, txSum_singleton]
              rw [h2]
              ring
            · intro b hb2
              rcases List.mem_map.mp hb2 with ⟨a, ha, rfl⟩
              by_cases hid : (a.id == bid) = true
              · simp only [hid, if_true]
                simpa using hstake
              · simp only [hid, if_false]
                exact h3 a ha
            · intro hnn
              obtain ⟨hbal, htxs⟩ := h4 hnn
              refine ⟨by simp only; linarith, ?_⟩
              intro tx htx
              rcases List.mem_append.mp htx with hmem | hmem
              · exact htxs tx hmem
              · simp only [List.mem_singleton] at hmem
                subst hmem
                simp only
                linarith
          · rw [settleBet_terminal_eq st bid result bet hfind hpend]
            exact ⟨h1, h2, h3, h4⟩

/-- C1 counterexample: already after the very first ledger operation (user
creation with starting balance 1000) the claimed formula fails: the balance
is 1000 while startingBalance plus the sum of all transaction amounts is
2000, because the INITIAL transaction itself carries the starting balance
as its amount, so the formula counts the starting balance twice. -/
theorem C1_ledger_formula_counterexample :
    Reachable (createUser 1000) ∧
    (createUser 1000).current_balance ≠
      (createUser 1000).starting_balance +
        txSum (createUser 1000).transactions := by
  refine ⟨Reachable.create 1000, ?_⟩
  simp [createUser, txSum]

/-- C1 (amended): after any sequence of the ledger operations (creation with
its INITIAL transaction, placements, settlements) the user's currentBalance
equals the sum of the amounts of all recorded transactions; equivalently,
startingBalance plus the sum of the amounts of the non-INITIAL
transactions. -/
theorem C1_ledger_consistency {st : LedgerState} (h : Reachable st) :
    st.current_balance = txSum st.transactions ∧
    st.current_balance = st.starting_balance +
      txSum (nonInitial st.transactions) := by
  obtain ⟨h1, h2, _, _⟩ := reachable_good h
  exact ⟨h1, h2⟩

/-- Witness for C1 at the concrete reachable state createUser 1000. -/
theorem C1_ledger_consistency_witness :
    (createUser 1000).current_balance = txSum (createUser 1000).transactions ∧
    (createUser 1000).current_balance = (createUser 1000).starting_balance +
      txSum (nonInitial (createUser 1000).transactions) :=
  C1_ledger_consistency (Reachable.create 1000)

/-- C2: settling a PENDING bet persists exactly the table values (WON:
profit = computeProfit rounded to 2 decimals, payout = stake + profit,
fairProfit = stake, fairPayout = 2 * stake; LOST: -stake, 0, -stake, 0;
PUSH: 0, stake, 0, stake) and appends one BET_SETTLED transaction with
amount = payout and balance_after = current_balance + payout. -/
theorem C2_settlement_outputs (st : LedgerState) (bid : ℕ) (r : SettleResult)
    (bet : BetRow) (hfind : st.bets.find? (fun b => b.id == bid) = some bet)
    (hpend : bet.status = BetStatus.PENDING) :
    settleOutputs bet.stake bet.odds_american SettleResult.WON =
      { profit := roundTo2 (calculateProfit bet.stake bet.odds_american)
        payout := bet.stake +
          roundTo2 (calculateProfit bet.stake bet.odds_american)
        fairProfit := bet.stake
        fairPayout := 2 * bet.stake }
    ∧ settleOutputs bet.stake bet.odds_american SettleResult.LOST =
      { profit := -bet.stake, payout := 0,
        fairProfit := -bet.stake, fairPayout := 0 }
    ∧ settleOutputs bet.stake bet.odds_american SettleResult.PUSH =
      { profit := 0, payout := bet.stake,
        fairProfit := 0, fairPayout := bet.stake }
    ∧ settleBet st bid r =
      { state :=
          { starting_balance := st.starting_balance
            current_balance := st.current_balance +
              (settleOutputs bet.stake bet.odds_american r).payout
            bets := st.bets.map (fun b => if b.id == bid then
              { bet with
                  status := r.toStatus
                  payout := some (settleOutputs bet.stake bet.odds_american r).payout
                  profit := some (settleOutputs bet.stake bet.odds_american r).profit
                  fair_profit := some (settleOutputs bet.stake bet.odds_american r).fairProfit
                  fair_payout := some (settleOutputs bet.stake bet.odds_american r).fairPayout }
              else b)
            transactions := st.transactions ++
              [{ type := .BET_SETTLED,
                 amount := (settleOutputs bet.stake bet.odds_american r).payout,
                 balance_after := st.current_balance +
                   (settleOutputs bet.stake bet.odds_american r).payout,
                 bet_id := some bid }] }
        err := none } := by
  refine ⟨?_, ?_, ?_, settleBet_pending_eq st bid r bet hfind hpend⟩
  · simp [settleOutputs, two_mul]
  · simp [settleOutputs]
  · simp [settleOutputs]

/-- Witness for C2 at the concrete state sampleState and its PENDING bet. -/
theorem C2_settlement_outputs_witness :
    (settleBet sampleState 0 SettleResult.WON).err = none := by
  have h := C2_settlement_outputs sampleState 0 SettleResult.WON sampleBet
    rfl rfl
  rw [h.2.2.2]

/-- C3: for every stake s > 0 and integer odds o, computeProfit follows the
American-odds formula: s * o / 100 for positive odds, s * 100 / abs o for
negative odds. -/
theorem C3_profit_formula (s : ℚ) (o : ℤ) (hs : 0 < s) :
    (0 < o → calculateProfit s (o : ℚ) = s * (o : ℚ) / 100) ∧
    (o < 0 → calculateProfit s (o : ℚ) = s * 100 / |(o : ℚ)|) := by
  constructor
  · intro ho
    have hoq : (0 : ℚ) < (o : ℚ) := by exact_mod_cast ho
    rw [calculateProfit, if_pos hoq]
    ring
  · intro ho
    have hoq : ¬(0 : ℚ) < (o : ℚ) := by
      rw [not_lt]
      exact_mod_cast ho.le
    rw [calculateProfit, if_neg hoq]
    ring

/-- Witness for C3 at s = 2, o = 150 and o = -110. -/
theorem C3_profit_formula_witness :
    0 < (2 : ℚ)
    ∧ ((0 < (150 : ℤ) →
        calculateProfit 2 ((150 : ℤ) : ℚ) = 2 * ((150 : ℤ) : ℚ) / 100) ∧
       ((150 : ℤ) < 0 →
        calculateProfit 2 ((150 : ℤ) : ℚ) = 2 * 100 / |((150 : ℤ) : ℚ)|))
    ∧ ((0 < (-110 : ℤ) →
        calculateProfit 2 ((-110 : ℤ) : ℚ) = 2 * ((-110 : ℤ) : ℚ) / 100) ∧
       ((-110 : ℤ) < 0 →
        calculateProfit 2 ((-110 : ℤ) : ℚ) = 2 * 100 / |((-110 : ℤ) : ℚ)|)) :=
  ⟨by norm_num, C3_profit_formula 2 150 (by norm_num),
    C3_profit_formula 2 (-110) (by norm_num)⟩

/-- C4: settling a bet whose status is not PENDING fails with the
already-settled message and returns the state unchanged: no bet field is
modified, no transaction is appended, and the balance is untouched. -/
theorem C4_settle_terminal_rejected (st : LedgerState) (bid : ℕ)
    (r : SettleResult) (bet : BetRow)
    (hfind : st.bets.find? (fun b => b.id == bid) = some bet)
    (hterm : bet.status ≠ BetStatus.PENDING) :
    settleBet st bid r = { state := st, err := some msgAlreadySettled } :=
  settleBet_terminal_eq st bid r bet hfind hterm

/-- Witness for C4 at the concrete state settledState and its WON bet. -/
theorem C4_settle_terminal_rejected_witness :
    settleBet settledState 0 SettleResult.WON =
      { state := settledState, err := some msgAlreadySettled } :=
  C4_settle_terminal_rejected settledState 0 SettleResult.WON settledBet
    rfl (by simp [settledBet])

/-- C5: placeBet succeeds exactly when the stake input parses to a finite
number q with 0 < q and q at most the current balance; every rejection
leaves the state unchanged; a non-finite parse (Infinity) is always
rejected; and a stake exactly equal to the (positive) current balance is
accepted. -/
theorem C5_placement_preconditions (st : LedgerState) (stakeIn : JsNumber)
    (side : Side) (spread : SpreadSide) (g : Option GameInfo) :
    (((placeBet st stakeIn side spread g).err = none) ↔
      ∃ q : ℚ, stakeIn = JsNumber.fin q ∧ 0 < q ∧ q ≤ st.current_balance)
    ∧ ((placeBet st stakeIn side spread g).err ≠ none →
        (placeBet st stakeIn side spread g).state = st)
    ∧ (placeBet st JsNumber.posInf side spread g).err ≠ none
    ∧ ((placeBet st (JsNumber.fin st.current_balance) side spread g).err = none
        ↔ 0 < st.current_balance) := by
  obtain ⟨hiff, hstate⟩ := placeBet_spec st stakeIn side spread g
  refine ⟨hiff, hstate, ?_, ?_⟩
  · intro hnone
    obtain ⟨q, hq, _⟩ := (placeBet_spec st JsNumber.posInf side spread g).1.mp hnone
    cases hq
  · constructor
    · intro hnone
      obtain ⟨q, hq, hq0, _⟩ :=
        (placeBet_spec st (JsNumber.fin st.current_balance) side spread g).1.mp hnone
      cases hq
      exact hq0
    · intro hpos
      exact (placeBet_spec st (JsNumber.fin st.current_balance) side spread g).1.mpr
        ⟨st.current_balance, rfl, hpos, le_refl _⟩

/-- Witness for C5: on the concrete state createUser 1000, an Infinity stake
is rejected and a stake equal to the whole balance is accepted. -/
theorem C5_placement_preconditions_witness :
    (placeBet (createUser 1000) JsNumber.posInf Side.HOME sampleSpread
      none).err ≠ none
    ∧ (placeBet (createUser 1000)
        (JsNumber.fin (createUser 1000).current_balance) Side.HOME
        sampleSpread none).err = none := by
  have h := C5_placement_preconditions (createUser 1000) JsNumber.posInf
    Side.HOME sampleSpread none
  exact ⟨h.2.2.1, h.2.2.2.mpr (by norm_num [createUser])⟩

/-- C6 counterexample: a WON settlement of a bet with stake 1 and odds
-100000 persists actual profit 0 (the raw profit 0.001 rounds to 0.00) but
fair profit 1, so the persisted actual and fair profits do not agree in
sign. -/
theorem C6_same_sign_counterexample :
    (settleOutputs 1 (-100000) SettleResult.WON).profit = 0
    ∧ (settleOutputs 1 (-100000) SettleResult.WON).fairProfit = 1
    ∧ ¬ sameSign (settleOutputs 1 (-100000) SettleResult.WON).profit
        (settleOutputs 1 (-100000) SettleResult.WON).fairProfit := by
  have hcp : calculateProfit 1 (-100000) = 1 / 1000 := by
    rw [calculateProfit, if_neg (by norm_num)]
    rw [abs_of_neg (by norm_num : (-100000 : ℚ) < 0)]
    norm_num
  have h0 : (settleOutputs 1 (-100000) SettleResult.WON).profit = 0 := by
    show roundTo2 (calculateProfit 1 (-100000)) = 0
    rw [hcp, roundTo2]
    norm_num
  have h1 : (settleOutputs 1 (-100000) SettleResult.WON).fairProfit = 1 := rfl
  refine ⟨h0, h1, ?_⟩
  intro hss
  rw [h0, h1] at hss
  exact absurd (hss.1.mpr (by norm_num)) (by norm_num)

/-- C6 (amended): for a settled bet with stake s > 0 and non-zero odds, in
the LOST case both profits equal -s and in the PUSH case both equal 0 (so
they agree in sign); in the WON case the fair profit is always exactly s and
the actual profit is non-negative, and the two agree in sign whenever the
raw computeProfit value is at least 0.005 (so that rounding to 2 decimals
cannot collapse it to zero). -/
theorem C6_fair_vs_actual (stake odds : ℚ) (hs : 0 < stake) (ho : odds ≠ 0)
    (r : SettleResult) :
    (r = SettleResult.LOST →
      (settleOutputs stake odds r).profit = -stake ∧
      (settleOutputs stake odds r).fairProfit = -stake ∧
      sameSign (settleOutputs stake odds r).profit
        (settleOutputs stake odds r).fairProfit)
    ∧ (r = SettleResult.PUSH →
      (settleOutputs stake odds r).profit = 0 ∧
      (settleOutputs stake odds r).fairProfit = 0 ∧
      sameSign (settleOutputs stake odds r).profit
        (settleOutputs stake odds r).fairProfit)
    ∧ (r = SettleResult.WON →
      (settleOutputs stake odds r).fairProfit = stake ∧
      0 ≤ (settleOutputs stake odds r).profit ∧
      (1 / 200 ≤ calculateProfit stake odds →
        sameSign (settleOutputs stake odds r).profit
          (settleOutputs stake odds r).fairProfit)) := by
  refine ⟨?_, ?_, ?_⟩
  · rintro rfl
    exact ⟨rfl, rfl, Iff.rfl, Iff.rfl⟩
  · rintro rfl
    exact ⟨rfl, rfl, Iff.rfl, Iff.rfl⟩
  · rintro rfl
    have hnn : 0 ≤ (settleOutputs stake odds SettleResult.WON).profit := by
      simpa [settleOutputs] using
        roundTo2_nonneg (@calculateProfit_nonneg stake odds hs.le)
    refine ⟨rfl, hnn, ?_⟩
    intro hraw
    have hpos : 0 < (settleOutputs stake odds SettleResult.WON).profit := by
      simpa [settleOutputs] using roundTo2_pos hraw
    constructor
    · constructor
      · intro _
        simpa [settleOutputs] using hs
      · intro _
        exact hpos
    · constructor
      · intro hneg
        exact absurd hneg (not_lt.mpr hnn)
      · intro hneg
        have : (settleOutputs stake odds SettleResult.WON).fairProfit = stake := rfl
        rw [this] at hneg
        exact absurd hneg (not_lt.mpr hs.le)

/-- Witness for C6 at stake 100, odds -110, result WON. -/
theorem C6_fair_vs_actual_witness :
    0 < (100 : ℚ) ∧ ((-110 : ℚ) ≠ 0) ∧
    ((SettleResult.WON = SettleResult.LOST →
      (settleOutputs 100 (-110) SettleResult.WON).profit = -100 ∧
      (settleOutputs 100 (-110) SettleResult.WON).fairProfit = -100 ∧
      sameSign (settleOutputs 100 (-110) SettleResult.WON).profit
        (settleOutputs 100 (-110) SettleResult.WON).fairProfit)
    ∧ (SettleResult.WON = SettleResult.PUSH →
      (settleOutputs 100 (-110) SettleResult.WON).profit = 0 ∧
      (settleOutputs 100 (-110) SettleResult.WON).fairProfit = 0 ∧
      sameSign (settleOutputs 100 (-110) SettleResult.WON).profit
        (settleOutputs 100 (-110) SettleResult.WON).fairProfit)
    ∧ (SettleResult.WON = SettleResult.WON →
      (settleOutputs 100 (-110) SettleResult.WON).fairProfit = 100 ∧
      0 ≤ (settleOutputs 100 (-110) SettleResult.WON).profit ∧
      (1 / 200 ≤ calculateProfit 100 (-110) →
        sameSign (settleOutputs 100 (-110) SettleResult.WON).profit
          (settleOutputs 100 (-110) SettleResult.WON).fairProfit))) :=
  ⟨by norm_num, by norm_num,
    C6_fair_vs_actual 100 (-110) (by norm_num) (by norm_num) SettleResult.WON⟩

/-- C7: for every spread line and every final margin of the bet team, the
WON/LOST/PUSH selection that the generated explanation text instructs
coincides with the threshold semantics of the spec for all five line shapes
(pick-em, fractional/integer favorite, fractional/integer underdog). -/
theorem C7_explanation_thresholds (line : ℚ) (m : ℤ) :
    criteriaOutcome (spreadCriteria line) m = specSpreadOutcome line m := by
  by_cases h0 : line = 0
  · have hc : spreadCriteria line = SpreadCriteria.pickem := by
      unfold spreadCriteria
      rw [if_pos h0]
    rw [hc]
    unfold specSpreadOutcome
    rw [if_pos h0]
    rfl
  · by_cases hneg : line < 0
    · by_cases hh : hasHook |line| = true
      · have hc : spreadCriteria line =
            SpreadCriteria.favoriteHook (⌊|line|⌋ + 1) := by
          unfold spreadCriteria
          rw [if_neg h0, if_pos hneg, if_pos hh]
        rw [hc]
        unfold specSpreadOutcome
        rw [if_neg h0, if_pos hneg, if_pos hh]
        rfl
      · have hc : spreadCriteria line = SpreadCriteria.favoriteInt |line| := by
          unfold spreadCriteria
          rw [if_neg h0, if_pos hneg, if_neg hh]
        rw [hc]
        unfold specSpreadOutcome
        rw [if_neg h0, if_pos hneg, if_neg hh]
        rfl
    · have hpos : 0 < line := lt_of_le_of_ne (not_lt.mp hneg) (Ne.symm h0)
      have habs : |line| = line := abs_of_pos hpos
      by_cases hh : hasHook |line| = true
      · have hc : spreadCriteria line = SpreadCriteria.underdogHook ⌊|line|⌋ := by
          unfold spreadCriteria
          rw [if_neg h0, if_neg hneg, if_pos hh]
        rw [hc]
        unfold specSpreadOutcome
        rw [if_neg h0, if_neg hneg, if_pos hh]
        show (if 1 ≤ m ∨ -m ≤ ⌊|line|⌋ then SettleResult.WON
          else SettleResult.LOST) = _
        rw [habs]
        have hfl : (0 : ℤ) ≤ ⌊line⌋ := Int.floor_nonneg.mpr hpos.le
        by_cases hcnd : 1 ≤ m ∨ -m ≤ ⌊line⌋
        · rw [if_pos hcnd, if_neg (by omega)]
        · rw [if_neg hcnd, if_pos (by omega)]
      · have hc : spreadCriteria line = SpreadCriteria.underdogInt |line| := by
          unfold spreadCriteria
          rw [if_neg h0, if_neg hneg, if_neg hh]
        rw [hc]
        unfold specSpreadOutcome
        rw [if_neg h0, if_neg hneg, if_neg hh]
        show (if -|line| < (m : ℚ) then SettleResult.WON
          else if (m : ℚ) = -|line| then SettleResult.PUSH
          else SettleResult.LOST) = _
        rw [habs]
        rcases lt_trichotomy ((m : ℚ)) (-line) with hlt | heq | hgt
        · rw [if_neg (lt_asymm hlt), if_neg (ne_of_lt hlt), if_pos hlt]
        · rw [if_neg (show ¬(-line < (m : ℚ)) by simp [heq]),
            if_pos heq,
            if_neg (show ¬((m : ℚ) < -line) by simp [heq]),
            if_pos heq]
        · rw [if_pos hgt, if_neg (lt_asymm hgt), if_neg (ne_of_gt hgt)]

/-- C8: settling WON a bet with stake 100 at odds -110 yields exactly
profit 90.91 (computeProfit rounded to 2 decimals), payout 190.91,
fairProfit 100 and fairPayout 200. -/
theorem C8_won_rounding_example :
    settleOutputs 100 (-110) SettleResult.WON =
      { profit := 90.91, payout := 190.91,
        fairProfit := 100, fairPayout := 200 } := by
  have hcp : calculateProfit 100 (-110) = 1000 / 11 := by
    rw [calculateProfit, if_neg (by norm_num)]
    rw [abs_of_neg (by norm_num : (-110 : ℚ) < 0)]
    norm_num
  have hround : roundTo2 (calculateProfit 100 (-110)) = 90.91 := by
    rw [hcp, roundTo2]
    norm_num
  show ({ profit := roundTo2 (calculateProfit 100 (-110)),
          payout := 100 + roundTo2 (calculateProfit 100 (-110)),
          fairProfit := 100, fairPayout := 100 + 100 } : SettleOutputs) = _
  rw [hround]
  norm_num

/-- C9: calculateProfit is total and performs no zero check: odds = 0 falls
into the negative-odds branch and evaluates stake * (100 / abs 0), an
unguarded division by zero instead of a rejection or error (in this
rational-number embedding division by zero yields 0, where JavaScript
yields Infinity; either way no error path exists). -/
theorem C9_zero_odds_division (s : ℚ) :
    calculateProfit s 0 = s * (100 / |(0 : ℚ)|)
    ∧ calculateProfit s 0 = s * (100 / |(0 : ℚ)|) + 0 := by
  constructor
  · rw [calculateProfit, if_neg (lt_irrefl 0)]
  · rw [calculateProfit, if_neg (lt_irrefl 0)]
    ring

/-- C10: starting from a non-negative starting balance, every reachable
state has a non-negative current balance, every recorded transaction has a
non-negative balance_after, and the settlement credit (payout) of every
stored bet is non-negative for each of the three terminal outcomes. -/
theorem C10_balance_nonneg {st : LedgerState} (h : Reachable st)
    (hnn : 0 ≤ st.starting_balance) :
    0 ≤ st.current_balance
    ∧ (∀ tx ∈ st.transactions, 0 ≤ tx.balance_after)
    ∧ (∀ b ∈ st.bets, ∀ r : SettleResult,
        0 ≤ (settleOutputs b.stake b.odds_american r).payout) := by
  obtain ⟨_, _, h3, h4⟩ := reachable_good h
  obtain ⟨hbal, htxs⟩ := h4 hnn
  exact ⟨hbal, htxs, fun b hb r => settle_payout_nonneg (h3 b hb) r⟩

/-- Witness for C10 at the concrete reachable state createUser 1000. -/
theorem C10_balance_nonneg_witness :
    0 ≤ (createUser 1000).current_balance
    ∧ (∀ tx ∈ (createUser 1000).transactions, 0 ≤ tx.balance_after)
    ∧ (∀ b ∈ (createUser 1000).bets, ∀ r : SettleResult,
        0 ≤ (settleOutputs b.stake b.odds_american r).payout) :=
  C10_balance_nonneg (Reachable.create 1000) (by norm_num [createUser])

end MockBetting
